import Mathlib

/-!
Verification of the hexagonal spatial aggregation engine of the
Logistics-supply-demand repository (app1.py, app2.py, zoom1.py, script.py).

The geometry library calls (h3 and shapely, third-party dependencies) are
modelled as an abstract bundle of deterministic functions (`GeoLib`): the
repository treats them as pure functions of their arguments.  Floats are
modelled as rationals, Python dicts keyed by H3 index as insertion-ordered
association lists, Python sets as insertion-ordered duplicate-free lists.
-/

namespace Logistics

/-- Abstract geometry dependencies (the `h3` and `shapely` libraries):
`latlngToCell lat lng res` models `h3.latlng_to_cell`, `cellToBoundary`
models `h3.cell_to_boundary`, `cellToLatLng` models `h3.cell_to_latlng`,
`gridDisk c k` models `h3.grid_disk`, and `polyIntersects p q` models
`shapely Polygon(p).intersects(Polygon(q))`.  All are deterministic pure
functions in the source. -/
structure GeoLib where
  latlngToCell : Rat → Rat → Nat → Nat
  cellToBoundary : Nat → List (Rat × Rat)
  cellToLatLng : Nat → Rat × Rat
  gridDisk : Nat → Nat → List Nat
  polyIntersects : List (Rat × Rat) → List (Rat × Rat) → Bool

/-- One loaded CSV row after the loader's cleaning (`load_logistics_data` /
`load_csv_data`): numeric coordinates, status/player strings, derived
`Hour_Bin` (app1) and `Time_Bin` (app2/script) strings, and the
`h3_index_id` column precomputed by app1/app2 at load time. -/
structure Row where
  lat : Rat
  lng : Rat
  orderStatus : String
  player : String
  hourBin : String
  timeBin : String
  h3Index : Nat
deriving DecidableEq

/-- Python whitespace characters stripped by `str.strip()`. -/
def isSpaceChar (c : Char) : Bool :=
  c = ' ' || c = '\t' || c = '\n' || c = '\r' || c = '\x0b' || c = '\x0c'

/-- Drop leading whitespace from a character list. -/
def dropLeadingSpace : List Char → List Char
  | [] => []
  | c :: cs => if isSpaceChar c then dropLeadingSpace cs else c :: cs

/-- `str.strip()`: drop whitespace from both ends. -/
def stripChars (l : List Char) : List Char :=
  (dropLeadingSpace (dropLeadingSpace l.reverse).reverse)

/-- ASCII `str.lower()` on one character. -/
def lowerChar (c : Char) : Char :=
  if 'A' ≤ c ∧ c ≤ 'Z' then Char.ofNat (c.toNat + 32) else c

/-- `str(row['Order Status']).strip().lower()` from the aggregation loops. -/
def normStatus (s : String) : String :=
  String.mk ((stripChars s.data).map lowerChar)

/-- The coordinate-range guard of every aggregation loop:
`-90 <= lat <= 90 and -180 <= lng <= 180`. -/
def validCoord (lat lng : Rat) : Bool :=
  decide (-90 ≤ lat ∧ lat ≤ 90 ∧ -180 ≤ lng ∧ lng ≤ 180)

/-- The row-level form of the coordinate-range guard. -/
def rowInRange (r : Row) : Bool := validCoord r.lat r.lng

/-- Round-half-to-even on an exact rational, the tie behaviour of Python's
builtin `round`. -/
def roundHalfEven (q : Rat) : Int :=
  if q - (q.floor : Rat) < 1/2 then q.floor
  else if 1/2 < q - (q.floor : Rat) then q.floor + 1
  else if q.floor % 2 = 0 then q.floor else q.floor + 1

/-- Python's `round(q, d)` on an exact rational value. -/
def pyRound (q : Rat) (d : Nat) : Rat :=
  (roundHalfEven (q * 10 ^ d) : Rat) / 10 ^ d

/-- Python dict membership update modelling `defaultdict` access followed by
in-place mutation: on a missing key the default is created and mutated, on a
present key the stored value is mutated; insertion order is preserved. -/
def updateCell {α : Type} (dflt : α) (bump : α → α) :
    List (Nat × α) → Nat → List (Nat × α)
  | [], cid => [(cid, bump dflt)]
  | (k, d) :: rest, cid =>
      if k = cid then (k, bump d) :: rest
      else (k, d) :: updateCell dflt bump rest cid

/-- The keys of an association list, in insertion order. -/
def keysOf {α : Type} (l : List (Nat × α)) : List Nat := l.map Prod.fst

/-- Sum of a numeric statistic over all values of an association list. -/
def sumBy {α : Type} (f : α → Nat) (l : List (Nat × α)) : Nat :=
  (l.map (fun kd => f kd.2)).sum

/-- One step of an aggregation loop over the record rows: skip the row if its
guard fails, otherwise bump the accumulator entry of the row's cell. -/
def aggStep {α : Type} (valid : Row → Bool) (key : Row → Nat) (dflt : α)
    (bump : Row → α → α) (acc : List (Nat × α)) (r : Row) : List (Nat × α) :=
  if valid r then updateCell dflt (bump r) acc (key r) else acc

/-- A full aggregation pass: fold the per-row step over the record list,
starting from the empty accumulator (the fresh `defaultdict`). -/
def aggFold {α : Type} (valid : Row → Bool) (key : Row → Nat) (dflt : α)
    (bump : Row → α → α) (df : List Row) : List (Nat × α) :=
  df.foldl (aggStep valid key dflt bump) []

/-- Python set `add` modelled on an insertion-ordered duplicate-free list. -/
def insertOnce {β : Type} [DecidableEq β] (l : List β) (x : β) : List β :=
  if x ∈ l then l else l ++ [x]

/-- Lexicographic comparison of character lists (Python string `<=`). -/
def charListLE : List Char → List Char → Bool
  | [], _ => true
  | _ :: _, [] => false
  | x :: xs, y :: ys => if x = y then charListLE xs ys else decide (x ≤ y)

/-- Python string comparison used by `sorted`. -/
def strLE (a b : String) : Bool := charListLE a.data b.data

/-- Stable insertion into a sorted list of strings. -/
def insertSorted (x : String) : List String → List String
  | [] => [x]
  | y :: ys => if strLE x y then x :: y :: ys else y :: insertSorted x ys

/-- Python `sorted` on a list of strings. -/
def sortStrings (l : List String) : List String := l.foldr insertSorted []

/-- `Timestamp.dt.hour`: the hour of day of a timestamp counted in minutes. -/
def dtHour (minutes : Nat) : Nat := minutes / 60 % 24

/-- Two-digit zero padding, the `f-string` format `{x:02d}`. -/
def pad2 (n : Nat) : String := if n < 10 then "0" ++ toString n else toString n

/-- app1's hourly bucket label: `f"{x:02d}-{(x+1):02d}"`. -/
def hourBinOf (h : Nat) : String := pad2 h ++ "-" ++ pad2 (h + 1)

/-- app2/script's quartered `Time_Bin`:
`pd.cut(df['Hour'], bins=[0, 6, 12, 18, 24], labels=[...])` with the default
right-closed intervals `(0,6], (6,12], (12,18], (18,24]`; an hour outside
every interval is left without a bucket (`NaN`), modelled as `none`. -/
def timeBinOf (hour : Nat) : Option String :=
  if 0 < hour ∧ hour ≤ 6 then some "Night (12AM-6AM)"
  else if 6 < hour ∧ hour ≤ 12 then some "Morning (6AM-12PM)"
  else if 12 < hour ∧ hour ≤ 18 then some "Afternoon (12PM-6PM)"
  else if 18 < hour ∧ hour ≤ 24 then some "Evening (6PM-12AM)"
  else none

/-- The per-request stats object `{total_orders, success_orders,
success_rate}` returned next to the feature collection. -/
structure Stats where
  total_orders : Nat
  success_orders : Nat
  success_rate : Rat
deriving DecidableEq

/-- The success count of the stats blocks:
`len(df[df['Order Status'].str.strip().str.lower() == 'success'])`. -/
def successCount (df : List Row) : Nat :=
  (df.filter (fun r => normStatus r.orderStatus == "success")).length

/-- `Except.ok` test, to state that a request was not rejected. -/
def exceptIsOk {ε α : Type} : Except ε α → Bool
  | .ok _ => true
  | .error _ => false

namespace Zoom1

/-- The per-cell accumulator of zoom1's `create_h3_hexagons`:
`defaultdict(lambda: {'total_orders': 0, 'success_orders': 0,
'fail_orders': 0, 'coords': []})` (a plain list, appended to). -/
structure CellData where
  total_orders : Nat
  success_orders : Nat
  fail_orders : Nat
  coords : List (Rat × Rat)
deriving DecidableEq

/-- The defaultdict default value. -/
def dflt : CellData :=
  { total_orders := 0, success_orders := 0, fail_orders := 0, coords := [] }

/-- The per-row mutation block of zoom1's aggregation loop. -/
def bump (r : Row) (d : CellData) : CellData :=
  let d1 : CellData := { d with total_orders := d.total_orders + 1,
                                coords := d.coords ++ [(r.lat, r.lng)] }
  if normStatus r.orderStatus = "success" then
    { d1 with success_orders := d1.success_orders + 1 }
  else
    { d1 with fail_orders := d1.fail_orders + 1 }

/-- The aggregation loop of zoom1's `create_h3_hexagons(df, resolution)`:
the cell key is computed per row by `h3.latlng_to_cell(lat, lng,
resolution)`. -/
def aggregate (g : GeoLib) (res : Nat) (df : List Row) :
    List (Nat × CellData) :=
  aggFold rowInRange (fun r => g.latlngToCell r.lat r.lng res) dflt bump df

/-- The properties bag of one emitted GeoJSON feature of zoom1 (geometry ring
held in `[lng, lat]` order as in the source). -/
structure Feature where
  h3_index : Nat
  boundary : List (Rat × Rat)
  total_orders : Nat
  success_orders : Nat
  fail_orders : Nat
  success_rate : Rat
  center_lat : Rat
  center_lng : Rat
deriving DecidableEq

/-- Emission of one feature from one accumulator entry (zoom1). -/
def mkFeature (g : GeoLib) (kd : Nat × CellData) : Feature :=
  { h3_index := kd.1,
    boundary := (g.cellToBoundary kd.1).map (fun c => (c.2, c.1)),
    total_orders := kd.2.total_orders,
    success_orders := kd.2.success_orders,
    fail_orders := kd.2.fail_orders,
    success_rate :=
      pyRound ((kd.2.success_orders : Rat) / (kd.2.total_orders : Rat) * 100) 2,
    center_lat := pyRound (g.cellToLatLng kd.1).1 6,
    center_lng := pyRound (g.cellToLatLng kd.1).2 6 }

/-- zoom1's `create_h3_hexagons`: aggregate, keep cells with
`total_orders > 0`, emit features. -/
def create_h3_hexagons (g : GeoLib) (df : List Row) (res : Nat) :
    List Feature :=
  ((aggregate g res df).filter (fun kd => decide (0 < kd.2.total_orders))).map
    (mkFeature g)

end Zoom1

namespace App1

/-- The per-cell accumulator of app1's `create_h3_hexagons`: counters plus the
sets `coords`, `hour_bins`, `logistics_players`. -/
structure CellData where
  total_orders : Nat
  success_orders : Nat
  fail_orders : Nat
  coords : List (Rat × Rat)
  hour_bins : List String
  logistics_players : List String
deriving DecidableEq

/-- The defaultdict default value. -/
def dflt : CellData :=
  { total_orders := 0, success_orders := 0, fail_orders := 0, coords := [],
    hour_bins := [], logistics_players := [] }

/-- The per-row mutation block of app1's aggregation loop. -/
def bump (r : Row) (d : CellData) : CellData :=
  let d1 : CellData :=
    { d with total_orders := d.total_orders + 1,
             coords := insertOnce d.coords (r.lat, r.lng),
             hour_bins := insertOnce d.hour_bins r.hourBin,
             logistics_players := insertOnce d.logistics_players r.player }
  if normStatus r.orderStatus = "success" then
    { d1 with success_orders := d1.success_orders + 1 }
  else
    { d1 with fail_orders := d1.fail_orders + 1 }

/-- The aggregation loop of app1's `create_h3_hexagons(df)`: the cell key is
the stored `h3_index_id` column of the row. -/
def aggregate (df : List Row) : List (Nat × CellData) :=
  aggFold rowInRange (fun r => r.h3Index) dflt bump df

/-- The properties bag of one emitted GeoJSON feature of app1. -/
structure Feature where
  h3_index : Nat
  boundary : List (Rat × Rat)
  total_orders : Nat
  success_orders : Nat
  fail_orders : Nat
  success_rate : Rat
  center_lat : Rat
  center_lng : Rat
  unique_restaurants : Nat
  hour_bins : String
  logistics_players : String
deriving DecidableEq

/-- Emission of one feature from one accumulator entry (app1):
`success_rate = round(success/total*100, 2)`, `hour_bins` comma-joined and
sorted, `logistics_players` comma-joined in set-insertion order. -/
def mkFeature (g : GeoLib) (kd : Nat × CellData) : Feature :=
  { h3_index := kd.1,
    boundary := (g.cellToBoundary kd.1).map (fun c => (c.2, c.1)),
    total_orders := kd.2.total_orders,
    success_orders := kd.2.success_orders,
    fail_orders := kd.2.fail_orders,
    success_rate :=
      pyRound ((kd.2.success_orders : Rat) / (kd.2.total_orders : Rat) * 100) 2,
    center_lat := pyRound (g.cellToLatLng kd.1).1 6,
    center_lng := pyRound (g.cellToLatLng kd.1).2 6,
    unique_restaurants := kd.2.coords.length,
    hour_bins := String.intercalate "," (sortStrings kd.2.hour_bins),
    logistics_players := String.intercalate "," kd.2.logistics_players }

/-- app1's `create_h3_hexagons`. -/
def create_h3_hexagons (g : GeoLib) (df : List Row) : List Feature :=
  ((aggregate df).filter (fun kd => decide (0 < kd.2.total_orders))).map
    (mkFeature g)

/-- The `h3_index_id` assignment of `load_logistics_data`:
`h3.latlng_to_cell(lat, lng, res=8)` per row. -/
def withH3Index (g : GeoLib) (r : Row) : Row :=
  { r with h3Index := g.latlngToCell r.lat r.lng 8 }

/-- The columnwise `df.apply` computing `h3_index_id` for every row at load
time, at the fixed resolution 8. -/
def load (g : GeoLib) (df : List Row) : List Row := df.map (withH3Index g)

/-- The filter block of app1's `/filter_hexagons` endpoint: apply the
logistics-player predicate unless "All", then the hour-bin predicate unless
"All". -/
def applyFilters (df : List Row) (player bin : String) : List Row :=
  let f1 := if player ≠ "All" then df.filter (fun r => r.player == player)
            else df
  if bin ≠ "All" then f1.filter (fun r => r.hourBin == bin) else f1

/-- app1's `/filter_hexagons` response body: hexagons from the filtered rows
plus the stats block with `success_rate = round(rate, 1)` where the rate of
an empty filtered set is 0. -/
def filter_response (g : GeoLib) (df : List Row) (player bin : String) :
    List Feature × Stats :=
  let filtered := applyFilters df player bin
  let hexagons := create_h3_hexagons g filtered
  let total := filtered.length
  let succ := successCount filtered
  let rate : Rat := if 0 < total then (succ : Rat) / (total : Rat) * 100 else 0
  (hexagons,
   { total_orders := total, success_orders := succ,
     success_rate := pyRound rate 1 })

end App1

namespace App2

/-- The per-cell accumulator of app2's `create_h3_hexagons`: counters plus the
sets `coords` and `time_bins`. -/
structure CellData where
  total_orders : Nat
  success_orders : Nat
  fail_orders : Nat
  coords : List (Rat × Rat)
  time_bins : List String
deriving DecidableEq

/-- The defaultdict default value. -/
def dflt : CellData :=
  { total_orders := 0, success_orders := 0, fail_orders := 0, coords := [],
    time_bins := [] }

/-- The per-row mutation block of app2's aggregation loop. -/
def bump (r : Row) (d : CellData) : CellData :=
  let d1 : CellData :=
    { d with total_orders := d.total_orders + 1,
             coords := insertOnce d.coords (r.lat, r.lng),
             time_bins := insertOnce d.time_bins r.timeBin }
  if normStatus r.orderStatus = "success" then
    { d1 with success_orders := d1.success_orders + 1 }
  else
    { d1 with fail_orders := d1.fail_orders + 1 }

/-- The aggregation loop of app2's `create_h3_hexagons(df)`: the cell key is
the stored `h3_index_id` column of the row. -/
def aggregate (df : List Row) : List (Nat × CellData) :=
  aggFold rowInRange (fun r => r.h3Index) dflt bump df

/-- The properties bag of one emitted GeoJSON feature of app2. -/
structure Feature where
  h3_index : Nat
  boundary : List (Rat × Rat)
  total_orders : Nat
  success_orders : Nat
  fail_orders : Nat
  success_rate : Rat
  center_lat : Rat
  center_lng : Rat
  unique_restaurants : Nat
  time_bins : String
deriving DecidableEq

/-- Emission of one feature from one accumulator entry (app2): `time_bins`
comma-joined in set-insertion order, unsorted. -/
def mkFeature (g : GeoLib) (kd : Nat × CellData) : Feature :=
  { h3_index := kd.1,
    boundary := (g.cellToBoundary kd.1).map (fun c => (c.2, c.1)),
    total_orders := kd.2.total_orders,
    success_orders := kd.2.success_orders,
    fail_orders := kd.2.fail_orders,
    success_rate :=
      pyRound ((kd.2.success_orders : Rat) / (kd.2.total_orders : Rat) * 100) 2,
    center_lat := pyRound (g.cellToLatLng kd.1).1 6,
    center_lng := pyRound (g.cellToLatLng kd.1).2 6,
    unique_restaurants := kd.2.coords.length,
    time_bins := String.intercalate "," kd.2.time_bins }

/-- app2's `create_h3_hexagons`. -/
def create_h3_hexagons (g : GeoLib) (df : List Row) : List Feature :=
  ((aggregate df).filter (fun kd => decide (0 < kd.2.total_orders))).map
    (mkFeature g)

/-- The time-bin whitelist filter of app2's `/filter_hexagons`:
`logistics_df[logistics_df['Time_Bin'].isin(selected_time_bins)]`. -/
def filteredByBins (df : List Row) (bins : List String) : List Row :=
  df.filter (fun r => decide (r.timeBin ∈ bins))

/-- app2's `/filter_hexagons` response body for a non-empty selection. -/
def filter_response (g : GeoLib) (df : List Row) (bins : List String) :
    List Feature × Stats :=
  let filtered := filteredByBins df bins
  let hexagons := create_h3_hexagons g filtered
  let total := filtered.length
  let succ := successCount filtered
  let rate : Rat := if 0 < total then (succ : Rat) / (total : Rat) * 100 else 0
  (hexagons,
   { total_orders := total, success_orders := succ,
     success_rate := pyRound rate 1 })

/-- app2's `/filter_hexagons` endpoint: an empty `time_bins` selection is
rejected with the 400 response `{'error': 'No time bins selected'}` before
any filtering happens; otherwise the response body is computed. -/
def filter_hexagons (g : GeoLib) (df : List Row) (bins : List String) :
    Except String (List Feature × Stats) :=
  if bins.isEmpty then Except.error "No time bins selected"
  else Except.ok (filter_response g df bins)

end App2

namespace Script

/-- The per-cell accumulator of script.py's `fill_polygon_with_hexagons`;
`supply_count` is initialised to 0 and never incremented by the loop (the
emitted supply count is `len(restaurant_locs)`). -/
structure CellData where
  total_orders : Nat
  success_orders : Nat
  fail_orders : Nat
  supply_count : Nat
  restaurant_locs : List (Rat × Rat)
deriving DecidableEq

/-- The defaultdict default value. -/
def dflt : CellData :=
  { total_orders := 0, success_orders := 0, fail_orders := 0,
    supply_count := 0, restaurant_locs := [] }

/-- The per-row mutation block of the region-fill aggregation loop. -/
def bump (r : Row) (d : CellData) : CellData :=
  let d1 : CellData :=
    { d with total_orders := d.total_orders + 1,
             restaurant_locs := insertOnce d.restaurant_locs (r.lat, r.lng) }
  if normStatus r.orderStatus = "success" then
    { d1 with success_orders := d1.success_orders + 1 }
  else
    { d1 with fail_orders := d1.fail_orders + 1 }

/-- Minimum of a list of rationals (for the polygon bounding box). -/
def listMin : List Rat → Rat
  | [] => 0
  | x :: xs => xs.foldl min x

/-- Maximum of a list of rationals (for the polygon bounding box). -/
def listMax : List Rat → Rat
  | [] => 0
  | x :: xs => xs.foldl max x

/-- The candidate disk of `fill_polygon_with_hexagons`: bounding box of the
region polygon (boundary vertices are `[lat, lng]` pairs, swapped into
`(x, y) = (lng, lat)`), its centre cell at the requested resolution, radius
`k = min(int(area_deg * 1000 / (resolution + 1)), 50)`, then
`h3.grid_disk(center_h3, k)`. -/
def regionCandidates (g : GeoLib) (boundary : List (Rat × Rat)) (res : Nat) :
    List Nat :=
  let xs := boundary.map (fun c => c.2)
  let ys := boundary.map (fun c => c.1)
  let minx := listMin xs
  let maxx := listMax xs
  let miny := listMin ys
  let maxy := listMax ys
  let centerLng := (minx + maxx) / 2
  let centerLat := (miny + maxy) / 2
  let centerCell := g.latlngToCell centerLat centerLng res
  let areaDeg := (maxx - minx) * (maxy - miny)
  let k := min ((areaDeg * 1000 / ((res : Rat) + 1)).floor) 50
  g.gridDisk centerCell k.toNat

/-- The per-cell geometric test of the region-fill loop:
`polygon.intersects(hex_polygon)` where both rings are rebuilt in
`(lng, lat)` axis order. -/
def cellIntersectsRegion (g : GeoLib) (boundary : List (Rat × Rat))
    (cid : Nat) : Bool :=
  let polygonCoords := boundary.map (fun c => (c.2, c.1))
  let hexCoords := (g.cellToBoundary cid).map (fun c => (c.2, c.1))
  g.polyIntersects polygonCoords hexCoords

/-- The row guard of the region-fill loop: coordinate range check, then
`hex_id in hexagons` (disk membership), then the polygon intersection test. -/
def fillValid (g : GeoLib) (boundary : List (Rat × Rat)) (res : Nat)
    (r : Row) : Bool :=
  rowInRange r &&
    (decide (g.latlngToCell r.lat r.lng res ∈ regionCandidates g boundary res)
      && cellIntersectsRegion g boundary (g.latlngToCell r.lat r.lng res))

/-- The aggregation loop of `fill_polygon_with_hexagons`. -/
def aggregate (g : GeoLib) (boundary : List (Rat × Rat)) (res : Nat)
    (df : List Row) : List (Nat × CellData) :=
  aggFold (fillValid g boundary res)
    (fun r => g.latlngToCell r.lat r.lng res) dflt bump df

/-- One emitted per-cell summary of the region-fill path; its `boundary` is
kept in raw `[lat, lng]` order (the source does not swap it here). -/
structure Hexagon where
  h3_index : Nat
  boundary : List (Rat × Rat)
  center_lat : Rat
  center_lng : Rat
  total_orders : Nat
  success_orders : Nat
  fail_orders : Nat
  success_rate : Rat
  supply_count : Nat
deriving DecidableEq

/-- Emission of one hexagon summary (script.py):
`success_rate = success/total*100` with NO rounding applied. -/
def mkHexagon (g : GeoLib) (kd : Nat × CellData) : Hexagon :=
  { h3_index := kd.1,
    boundary := g.cellToBoundary kd.1,
    center_lat := (g.cellToLatLng kd.1).1,
    center_lng := (g.cellToLatLng kd.1).2,
    total_orders := kd.2.total_orders,
    success_orders := kd.2.success_orders,
    fail_orders := kd.2.fail_orders,
    success_rate :=
      (kd.2.success_orders : Rat) / (kd.2.total_orders : Rat) * 100,
    supply_count := kd.2.restaurant_locs.length }

/-- script.py's `fill_polygon_with_hexagons(boundary_coords, resolution,
df_filtered)`: a boundary with fewer than 3 vertices yields `[]`; otherwise
aggregate over the filtered rows and emit cells with `total_orders > 0`. -/
def fill_polygon_with_hexagons (g : GeoLib) (boundary : List (Rat × Rat))
    (res : Nat) (df : List Row) : List Hexagon :=
  if boundary.length < 3 then []
  else
    ((aggregate g boundary res df).filter
        (fun kd => decide (0 < kd.2.total_orders))).map (mkHexagon g)

end Script

/-- A concrete geometry bundle used to evaluate the definitions on sample
inputs: every point maps to cell 5, every cell has a fixed triangular
boundary, `grid_disk` returns its centre cell, every intersection test
succeeds. -/
def trivGeo : GeoLib :=
  { latlngToCell := fun _ _ _ => 5,
    cellToBoundary := fun _ => [(0, 0), (0, 1), (1, 0)],
    cellToLatLng := fun _ => (0, 0),
    gridDisk := fun c _ => [c],
    polyIntersects := fun _ _ => true }

/-- A concrete successful order row. -/
def rowW : Row :=
  { lat := 28, lng := 77, orderStatus := "Success", player := "X",
    hourBin := "10-11", timeBin := "Night (12AM-6AM)", h3Index := 5 }

/-- A concrete failed order row. -/
def rowF : Row :=
  { lat := 28, lng := 77, orderStatus := "Fail", player := "X",
    hourBin := "10-11", timeBin := "Night (12AM-6AM)", h3Index := 5 }

/-- A concrete triangular region boundary (three `[lat, lng]` vertices). -/
def triBoundary : List (Rat × Rat) := [(0, 0), (0, 1), (1, 0)]

/-- A degenerate two-vertex region boundary. -/
def twoVertexBoundary : List (Rat × Rat) := [(0, 0), (1, 1)]

/-- The single feature emitted by app1 on the one-row sample input. -/
def featW : App1.Feature := App1.mkFeature trivGeo (5, App1.bump rowW App1.dflt)

/-- The single hexagon emitted by the region-fill path on the one-row sample
input. -/
def hexW : Script.Hexagon :=
  Script.mkHexagon trivGeo (5, Script.bump rowW Script.dflt)

/-!  Theorems.  -/

/-- `Batteries.Rat.floor` agrees with the mathematical floor. -/
theorem ratFloor_eq_intFloor (q : Rat) : q.floor = ⌊q⌋ := by
  rw [Rat.floor_def', ← Rat.floor_def]

/-- `roundHalfEven` never rounds below the floor. -/
theorem roundHalfEven_nonneg (q : Rat) (h : 0 ≤ q) : 0 ≤ roundHalfEven q := by
  have hf : (0 : Int) ≤ ⌊q⌋ := Int.floor_nonneg.mpr h
  unfold roundHalfEven
  rw [ratFloor_eq_intFloor]
  split
  · exact hf
  · split
    · omega
    · split <;> omega

/-- `roundHalfEven` of a value at most an integer bound stays at most it. -/
theorem roundHalfEven_le (q : Rat) (n : Int) (h : q ≤ (n : Rat)) :
    roundHalfEven q ≤ n := by
  have hfl : ⌊q⌋ ≤ n := by exact_mod_cast le_trans (Int.floor_le q) h
  unfold roundHalfEven
  rw [ratFloor_eq_intFloor]
  split
  · exact hfl
  · rename_i hno
    push_neg at hno
    have hlt2 : (⌊q⌋ : Rat) < (n : Rat) := by linarith
    have hint : ⌊q⌋ < n := by exact_mod_cast hlt2
    split
    · omega
    · split <;> omega

/-- `pyRound` preserves non-negativity. -/
theorem pyRound_nonneg (q : Rat) (d : Nat) (h : 0 ≤ q) : 0 ≤ pyRound q d := by
  unfold pyRound
  have h1 : (0 : Rat) ≤ q * 10 ^ d := by positivity
  have h2 := roundHalfEven_nonneg _ h1
  have h3 : (0 : Rat) ≤ (roundHalfEven (q * 10 ^ d) : Rat) := by exact_mod_cast h2
  positivity

/-- `pyRound` preserves an integer upper bound. -/
theorem pyRound_le (q : Rat) (d : Nat) (n : Nat) (h : q ≤ (n : Rat)) :
    pyRound q d ≤ (n : Rat) := by
  unfold pyRound
  have hpow : (0 : Rat) < 10 ^ d := by positivity
  have h1 : q * 10 ^ d ≤ ((n * 10 ^ d : Int) : Rat) := by
    push_cast
    exact mul_le_mul_of_nonneg_right h (le_of_lt hpow)
  have h2 := roundHalfEven_le _ _ h1
  have h3 : (roundHalfEven (q * 10 ^ d) : Rat) ≤ ((n * 10 ^ d : Int) : Rat) := by
    exact_mod_cast h2
  rw [div_le_iff₀ hpow]
  push_cast at h3 ⊢
  linarith

/-- `round(0, d) = 0`. -/
theorem pyRound_zero (d : Nat) : pyRound 0 d = 0 := by
  have h1 := pyRound_nonneg 0 d le_rfl
  have h2 := pyRound_le 0 d 0 (by norm_num)
  push_cast at h2
  linarith

/-- One bumping update adds exactly one to any statistic that the bump
increments by one, starting from a zero default. -/
theorem sumBy_updateCell {α : Type} (f : α → Nat) (dflt : α) (bump : α → α)
    (hb : ∀ d, f (bump d) = f d + 1) (h0 : f dflt = 0) :
    ∀ (acc : List (Nat × α)) (cid : Nat),
      sumBy f (updateCell dflt bump acc cid) = sumBy f acc + 1 := by
  intro acc cid
  induction acc with
  | nil => simp [updateCell, sumBy, hb, h0]
  | cons hd tl ih =>
      obtain ⟨k, d⟩ := hd
      by_cases hk : k = cid
      · subst hk
        simp only [updateCell, eq_self_iff_true, if_true, sumBy, List.map_cons,
          List.sum_cons, hb]
        omega
      · simp only [updateCell, if_neg hk, sumBy, List.map_cons, List.sum_cons]
        simp only [sumBy] at ih
        omega

/-- Updating either leaves the key list unchanged (key present) or appends
the new key at the end (key absent). -/
theorem keysOf_updateCell {α : Type} (dflt : α) (bump : α → α)
    (acc : List (Nat × α)) (cid : Nat) :
    keysOf (updateCell dflt bump acc cid)
      = if cid ∈ keysOf acc then keysOf acc else keysOf acc ++ [cid] := by
  induction acc with
  | nil => simp [updateCell, keysOf]
  | cons hd tl ih =>
      obtain ⟨k, d⟩ := hd
      by_cases hk : k = cid
      · simp [updateCell, hk, keysOf]
      · simp only [updateCell, if_neg hk, keysOf, List.map_cons]
        simp only [keysOf] at ih
        rw [ih]
        by_cases hmem : cid ∈ tl.map Prod.fst
        · simp [hmem, Ne.symm hk]
        · simp [hmem, Ne.symm hk]

/-- A membership update preserves distinctness of keys. -/
theorem nodup_keysOf_updateCell {α : Type} (dflt : α) (bump : α → α)
    (acc : List (Nat × α)) (cid : Nat) (h : (keysOf acc).Nodup) :
    (keysOf (updateCell dflt bump acc cid)).Nodup := by
  rw [keysOf_updateCell]
  by_cases hmem : cid ∈ keysOf acc
  · simpa [hmem]
  · simpa [hmem] using List.Nodup.append h (List.nodup_singleton cid)
      (List.disjoint_singleton.mpr hmem)

/-- Key membership after an update. -/
theorem mem_keysOf_updateCell {α : Type} (dflt : α) (bump : α → α)
    (acc : List (Nat × α)) (cid k : Nat) :
    k ∈ keysOf (updateCell dflt bump acc cid) ↔ k ∈ keysOf acc ∨ k = cid := by
  rw [keysOf_updateCell]
  by_cases hmem : cid ∈ keysOf acc
  · simp only [if_pos hmem]
    constructor
    · exact Or.inl
    · rintro (h | rfl)
      · exact h
      · exact hmem
  · simp [if_neg hmem]

/-- Every value in an updated association list satisfies an invariant that
holds of the bumped default, is preserved by bumps, and holds of all previous
values. -/
theorem entries_updateCell {α : Type} (P : α → Prop) (dflt : α) (bump : α → α)
    (hP0 : P (bump dflt)) (hPb : ∀ d, P d → P (bump d)) :
    ∀ (acc : List (Nat × α)) (cid : Nat), (∀ e ∈ acc, P e.2) →
      ∀ e ∈ updateCell dflt bump acc cid, P e.2 := by
  intro acc cid hacc
  induction acc with
  | nil =>
      intro e he
      simp only [updateCell, List.mem_singleton] at he
      subst he
      exact hP0
  | cons hd tl ih =>
      obtain ⟨k, d⟩ := hd
      intro e he
      by_cases hk : k = cid
      · simp only [updateCell, if_pos hk, List.mem_cons] at he
        rcases he with rfl | he
        · exact hPb d (hacc (k, d) (List.mem_cons_self _ _))
        · exact hacc e (List.mem_cons_of_mem _ he)
      · simp only [updateCell, if_neg hk, List.mem_cons] at he
        rcases he with rfl | he
        · exact hacc (k, d) (List.mem_cons_self _ _)
        · exact ih (fun x hx => hacc x (List.mem_cons_of_mem _ hx)) e he

/-- Folding the aggregation step adds to any unit-incremented statistic
exactly the number of guard-passing rows. -/
theorem sumBy_foldl {α : Type} (f : α → Nat) (valid : Row → Bool)
    (key : Row → Nat) (dflt : α) (bump : Row → α → α)
    (hb : ∀ r d, valid r = true → f (bump r d) = f d + 1) (h0 : f dflt = 0) :
    ∀ (df : List Row) (acc : List (Nat × α)),
      sumBy f (df.foldl (aggStep valid key dflt bump) acc)
        = sumBy f acc + (df.filter valid).length := by
  intro df
  induction df with
  | nil => intro acc; simp
  | cons r tl ih =>
      intro acc
      by_cases hv : valid r = true
      · rw [List.foldl_cons, ih]
        simp only [aggStep, if_pos hv]
        rw [sumBy_updateCell f dflt (bump r) (fun d => hb r d hv) h0]
        simp [List.filter_cons, hv]
        omega
      · rw [List.foldl_cons, ih]
        simp only [aggStep, hv, if_neg]
        simp only [Bool.not_eq_true] at hv
        simp [List.filter_cons, hv]

/-- Folding the aggregation step preserves distinctness of cell keys. -/
theorem nodup_keysOf_foldl {α : Type} (valid : Row → Bool) (key : Row → Nat)
    (dflt : α) (bump : Row → α → α) :
    ∀ (df : List Row) (acc : List (Nat × α)), (keysOf acc).Nodup →
      (keysOf (df.foldl (aggStep valid key dflt bump) acc)).Nodup := by
  intro df
  induction df with
  | nil => intro acc h; simpa
  | cons r tl ih =>
      intro acc h
      rw [List.foldl_cons]
      apply ih
      unfold aggStep
      split
      · exact nodup_keysOf_updateCell _ _ _ _ h
      · exact h

/-- Every key of the folded accumulator is either an initial key or the cell
key of some guard-passing row of the input. -/
theorem mem_keysOf_foldl {α : Type} (valid : Row → Bool) (key : Row → Nat)
    (dflt : α) (bump : Row → α → α) :
    ∀ (df : List Row) (acc : List (Nat × α)) (k : Nat),
      k ∈ keysOf (df.foldl (aggStep valid key dflt bump) acc) →
      k ∈ keysOf acc ∨ ∃ r ∈ df, valid r = true ∧ k = key r := by
  intro df
  induction df with
  | nil => intro acc k h; exact Or.inl (by simpa using h)
  | cons r tl ih =>
      intro acc k h
      rw [List.foldl_cons] at h
      rcases ih _ k h with h1 | ⟨r2, hr2, hv2, hk2⟩
      · unfold aggStep at h1
        split at h1
        · rcases (mem_keysOf_updateCell _ _ _ _ _).mp h1 with h2 | rfl
          · exact Or.inl h2
          · exact Or.inr ⟨r, List.mem_cons_self _ _, by assumption, rfl⟩
        · exact Or.inl h1
      · exact Or.inr ⟨r2, List.mem_cons_of_mem _ hr2, hv2, hk2⟩

/-- Keys already present survive the rest of the fold. -/
theorem mem_keysOf_foldl_mono {α : Type} (valid : Row → Bool) (key : Row → Nat)
    (dflt : α) (bump : Row → α → α) :
    ∀ (df : List Row) (acc : List (Nat × α)) (k : Nat), k ∈ keysOf acc →
      k ∈ keysOf (df.foldl (aggStep valid key dflt bump) acc) := by
  intro df
  induction df with
  | nil => intro acc k h; simpa
  | cons r tl ih =>
      intro acc k h
      rw [List.foldl_cons]
      apply ih
      unfold aggStep
      split
      · exact (mem_keysOf_updateCell _ _ _ _ _).mpr (Or.inl h)
      · exact h

/-- Every guard-passing row's cell key appears among the folded keys. -/
theorem key_mem_keysOf_foldl {α : Type} (valid : Row → Bool) (key : Row → Nat)
    (dflt : α) (bump : Row → α → α) :
    ∀ (df : List Row) (acc : List (Nat × α)) (r : Row), r ∈ df →
      valid r = true →
      key r ∈ keysOf (df.foldl (aggStep valid key dflt bump) acc) := by
  intro df
  induction df with
  | nil => intro acc r h; cases h
  | cons r0 tl ih =>
      intro acc r hr hv
      rw [List.foldl_cons]
      rcases List.mem_cons.mp hr with rfl | hr2
      · apply mem_keysOf_foldl_mono
        simp only [aggStep, if_pos hv]
        exact (mem_keysOf_updateCell _ _ _ _ _).mpr (Or.inr rfl)
      · exact ih _ r hr2 hv

/-- Invariant propagation through a full aggregation pass. -/
theorem entries_foldl {α : Type} (P : α → Prop) (valid : Row → Bool)
    (key : Row → Nat) (dflt : α) (bump : Row → α → α)
    (hP0 : ∀ r, valid r = true → P (bump r dflt))
    (hPb : ∀ r d, valid r = true → P d → P (bump r d)) :
    ∀ (df : List Row) (acc : List (Nat × α)), (∀ e ∈ acc, P e.2) →
      ∀ e ∈ df.foldl (aggStep valid key dflt bump) acc, P e.2 := by
  intro df
  induction df with
  | nil => intro acc h; simp only [List.foldl_nil]; exact h
  | cons r tl ih =>
      intro acc h
      rw [List.foldl_cons]
      apply ih
      intro e he
      unfold aggStep at he
      split at he
      · exact entries_updateCell P dflt (bump r) (hP0 r (by assumption))
          (fun d hd => hPb r d (by assumption) hd) acc (key r) h e he
      · exact h e he

/-- zoom1's per-row mutation adds one to `total_orders`. -/
theorem zoom1_bump_total (r : Row) (d : Zoom1.CellData) :
    (Zoom1.bump r d).total_orders = d.total_orders + 1 := by
  simp only [Zoom1.bump]
  split <;> rfl

/-- zoom1's per-row mutation adds one to `success_orders + fail_orders`. -/
theorem zoom1_bump_succ_fail (r : Row) (d : Zoom1.CellData) :
    (Zoom1.bump r d).success_orders + (Zoom1.bump r d).fail_orders
      = d.success_orders + d.fail_orders + 1 := by
  simp only [Zoom1.bump]
  split <;> simp <;> omega

/-- Every zoom1 accumulator entry has a positive order count. -/
theorem zoom1_agg_pos (g : GeoLib) (res : Nat) (df : List Row) :
    ∀ e ∈ Zoom1.aggregate g res df, 0 < e.2.total_orders := by
  intro e he
  refine entries_foldl (fun d => 0 < d.total_orders) rowInRange
      (fun r => g.latlngToCell r.lat r.lng res) Zoom1.dflt Zoom1.bump
      ?_ ?_ df [] (by simp) e he
  · intro r _
    rw [zoom1_bump_total]
    omega
  · intro r d _ _
    rw [zoom1_bump_total]
    omega

/-- The `total_orders > 0` emission filter of zoom1 keeps every entry. -/
theorem zoom1_filter_eq (g : GeoLib) (res : Nat) (df : List Row) :
    (Zoom1.aggregate g res df).filter (fun kd => decide (0 < kd.2.total_orders))
      = Zoom1.aggregate g res df :=
  List.filter_eq_self.mpr
    (fun e he => decide_eq_true (zoom1_agg_pos g res df e he))

/-- The emitted zoom1 feature indices are exactly the accumulator keys. -/
theorem zoom1_map_h3 (g : GeoLib) (res : Nat) (df : List Row) :
    (Zoom1.create_h3_hexagons g df res).map Zoom1.Feature.h3_index
      = keysOf (Zoom1.aggregate g res df) := by
  unfold Zoom1.create_h3_hexagons
  rw [zoom1_filter_eq, List.map_map]
  rfl

/-- The emitted zoom1 order totals sum to the accumulator totals. -/
theorem zoom1_map_total (g : GeoLib) (res : Nat) (df : List Row) :
    ((Zoom1.create_h3_hexagons g df res).map Zoom1.Feature.total_orders).sum
      = sumBy Zoom1.CellData.total_orders (Zoom1.aggregate g res df) := by
  unfold Zoom1.create_h3_hexagons
  rw [zoom1_filter_eq, List.map_map]
  rfl

/-- zoom1's accumulator totals sum to the number of in-range rows. -/
theorem zoom1_total_conservation (g : GeoLib) (res : Nat) (df : List Row) :
    sumBy Zoom1.CellData.total_orders (Zoom1.aggregate g res df)
      = (df.filter rowInRange).length := by
  have h := sumBy_foldl Zoom1.CellData.total_orders rowInRange
      (fun r => g.latlngToCell r.lat r.lng res) Zoom1.dflt Zoom1.bump
      (fun r d _ => zoom1_bump_total r d) rfl df []
  simpa [Zoom1.aggregate, aggFold, sumBy] using h

/-- app1's per-row mutation adds one to `total_orders`. -/
theorem app1_bump_total (r : Row) (d : App1.CellData) :
    (App1.bump r d).total_orders = d.total_orders + 1 := by
  simp only [App1.bump]
  split <;> rfl

/-- app1's per-row mutation adds one to `success_orders + fail_orders`. -/
theorem app1_bump_succ_fail (r : Row) (d : App1.CellData) :
    (App1.bump r d).success_orders + (App1.bump r d).fail_orders
      = d.success_orders + d.fail_orders + 1 := by
  simp only [App1.bump]
  split <;> simp <;> omega

/-- Every app1 accumulator entry has a positive order count. -/
theorem app1_agg_pos (df : List Row) :
    ∀ e ∈ App1.aggregate df, 0 < e.2.total_orders := by
  intro e he
  refine entries_foldl (fun d => 0 < d.total_orders) rowInRange
      (fun r => r.h3Index) App1.dflt App1.bump ?_ ?_ df [] (by simp) e he
  · intro r _
    rw [app1_bump_total]
    omega
  · intro r d _ _
    rw [app1_bump_total]
    omega

/-- Every app1 accumulator entry splits its total into success plus fail. -/
theorem app1_agg_split (df : List Row) :
    ∀ e ∈ App1.aggregate df,
      e.2.success_orders + e.2.fail_orders = e.2.total_orders := by
  intro e he
  refine entries_foldl
      (fun d => d.success_orders + d.fail_orders = d.total_orders) rowInRange
      (fun r => r.h3Index) App1.dflt App1.bump ?_ ?_ df [] (by simp) e he
  · intro r _
    rw [app1_bump_succ_fail, app1_bump_total]
    rfl
  · intro r d _ hd
    rw [app1_bump_succ_fail, app1_bump_total, hd]

/-- The `total_orders > 0` emission filter of app1 keeps every entry. -/
theorem app1_filter_eq (df : List Row) :
    (App1.aggregate df).filter (fun kd => decide (0 < kd.2.total_orders))
      = App1.aggregate df :=
  List.filter_eq_self.mpr (fun e he => decide_eq_true (app1_agg_pos df e he))

/-- The emitted app1 feature indices are exactly the accumulator keys. -/
theorem app1_map_h3 (g : GeoLib) (df : List Row) :
    (App1.create_h3_hexagons g df).map App1.Feature.h3_index
      = keysOf (App1.aggregate df) := by
  unfold App1.create_h3_hexagons
  rw [app1_filter_eq, List.map_map]
  rfl

/-- The emitted app1 order totals sum to the accumulator totals. -/
theorem app1_map_total (g : GeoLib) (df : List Row) :
    ((App1.create_h3_hexagons g df).map App1.Feature.total_orders).sum
      = sumBy App1.CellData.total_orders (App1.aggregate df) := by
  unfold App1.create_h3_hexagons
  rw [app1_filter_eq, List.map_map]
  rfl

/-- app1's accumulator totals sum to the number of in-range rows. -/
theorem app1_total_conservation (df : List Row) :
    sumBy App1.CellData.total_orders (App1.aggregate df)
      = (df.filter rowInRange).length := by
  have h := sumBy_foldl App1.CellData.total_orders rowInRange
      (fun r => r.h3Index) App1.dflt App1.bump
      (fun r d _ => app1_bump_total r d) rfl df []
  simpa [App1.aggregate, aggFold, sumBy] using h

/-- Rows surviving app1's filter block come from the input set. -/
theorem app1_applyFilters_subset (df : List Row) (player bin : String) :
    ∀ r ∈ App1.applyFilters df player bin, r ∈ df := by
  intro r hr
  simp only [App1.applyFilters] at hr
  split at hr
  · split at hr
    · exact (List.mem_filter.mp (List.mem_filter.mp hr).1).1
    · exact (List.mem_filter.mp hr).1
  · split at hr
    · exact (List.mem_filter.mp hr).1
    · exact hr

/-- script.py's per-row mutation adds one to `total_orders`. -/
theorem script_bump_total (r : Row) (d : Script.CellData) :
    (Script.bump r d).total_orders = d.total_orders + 1 := by
  simp only [Script.bump]
  split <;> rfl

/-- script.py's per-row mutation adds one to `success_orders + fail_orders`. -/
theorem script_bump_succ_fail (r : Row) (d : Script.CellData) :
    (Script.bump r d).success_orders + (Script.bump r d).fail_orders
      = d.success_orders + d.fail_orders + 1 := by
  simp only [Script.bump]
  split <;> simp <;> omega

/-- Every region-fill accumulator entry has a positive order count. -/
theorem script_agg_pos (g : GeoLib) (boundary : List (Rat × Rat)) (res : Nat)
    (df : List Row) :
    ∀ e ∈ Script.aggregate g boundary res df, 0 < e.2.total_orders := by
  intro e he
  refine entries_foldl (fun d => 0 < d.total_orders)
      (Script.fillValid g boundary res)
      (fun r => g.latlngToCell r.lat r.lng res) Script.dflt Script.bump
      ?_ ?_ df [] (by simp) e he
  · intro r _
    rw [script_bump_total]
    omega
  · intro r d _ _
    rw [script_bump_total]
    omega

/-- Every region-fill accumulator entry splits its total into success plus
fail. -/
theorem script_agg_split (g : GeoLib) (boundary : List (Rat × Rat)) (res : Nat)
    (df : List Row) :
    ∀ e ∈ Script.aggregate g boundary res df,
      e.2.success_orders + e.2.fail_orders = e.2.total_orders := by
  intro e he
  refine entries_foldl
      (fun d => d.success_orders + d.fail_orders = d.total_orders)
      (Script.fillValid g boundary res)
      (fun r => g.latlngToCell r.lat r.lng res) Script.dflt Script.bump
      ?_ ?_ df [] (by simp) e he
  · intro r _
    rw [script_bump_succ_fail, script_bump_total]
    rfl
  · intro r d _ hd
    rw [script_bump_succ_fail, script_bump_total, hd]

/-- The `total_orders > 0` emission filter of the region-fill path keeps
every entry. -/
theorem script_filter_eq (g : GeoLib) (boundary : List (Rat × Rat)) (res : Nat)
    (df : List Row) :
    (Script.aggregate g boundary res df).filter
        (fun kd => decide (0 < kd.2.total_orders))
      = Script.aggregate g boundary res df :=
  List.filter_eq_self.mpr
    (fun e he => decide_eq_true (script_agg_pos g boundary res df e he))

/-- script.py's accumulator totals sum to the number of guard-passing rows. -/
theorem script_total_conservation (g : GeoLib) (boundary : List (Rat × Rat))
    (res : Nat) (df : List Row) :
    sumBy Script.CellData.total_orders (Script.aggregate g boundary res df)
      = (df.filter (Script.fillValid g boundary res)).length := by
  have h := sumBy_foldl Script.CellData.total_orders
      (Script.fillValid g boundary res)
      (fun r => g.latlngToCell r.lat r.lng res) Script.dflt Script.bump
      (fun r d _ => script_bump_total r d) rfl df []
  simpa [Script.aggregate, aggFold, sumBy] using h

/-- Bounds of the rate expression `success/total*100`. -/
theorem rate_bounds (s t : Nat) (hst : s ≤ t) (ht : 0 < t) :
    0 ≤ (s : Rat) / (t : Rat) * 100 ∧ (s : Rat) / (t : Rat) * 100 ≤ 100 := by
  have htq : (0 : Rat) < (t : Rat) := by exact_mod_cast ht
  constructor
  · positivity
  · have h1 : (s : Rat) / (t : Rat) ≤ 1 := by
      rw [div_le_one htq]
      exact_mod_cast hst
    nlinarith

/-- Aggregating an empty record set emits no features (app1). -/
theorem app1_create_nil (g : GeoLib) : App1.create_h3_hexagons g [] = [] := rfl

/-- Aggregating an empty record set emits no features (app2). -/
theorem app2_create_nil (g : GeoLib) : App2.create_h3_hexagons g [] = [] := rfl

/-!  Claim theorems.  -/

/-- C1: For every input record set and any resolution, aggregation assigns
each valid record's coordinate to exactly one cell — the emitted cell indices
are pairwise distinct and the cell of every in-range record appears among
them — and the emitted `total_orders` values sum to the size of the filtered
input (the rows surviving the invalid coordinate and timestamp drop and the
range guard), in both the resolution-parametric variant (zoom1) and the
stored-index variant (app1). -/
theorem C1_partition (g : GeoLib) (res : Nat) (df : List Row) :
    ((Zoom1.create_h3_hexagons g df res).map Zoom1.Feature.h3_index).Nodup ∧
    ((Zoom1.create_h3_hexagons g df res).map Zoom1.Feature.total_orders).sum
        = (df.filter rowInRange).length ∧
    ((App1.create_h3_hexagons g df).map App1.Feature.total_orders).sum
        = (df.filter rowInRange).length ∧
    ∀ r ∈ df, rowInRange r = true →
      g.latlngToCell r.lat r.lng res
        ∈ (Zoom1.create_h3_hexagons g df res).map Zoom1.Feature.h3_index := by
  refine ⟨?_, ?_, ?_, ?_⟩
  · rw [zoom1_map_h3]
    exact nodup_keysOf_foldl rowInRange
      (fun r => g.latlngToCell r.lat r.lng res) Zoom1.dflt Zoom1.bump df []
      (by simp [keysOf])
  · rw [zoom1_map_total, zoom1_total_conservation]
  · rw [app1_map_total, app1_total_conservation]
  · intro r hr hv
    rw [zoom1_map_h3]
    exact key_mem_keysOf_foldl rowInRange
      (fun r => g.latlngToCell r.lat r.lng res) Zoom1.dflt Zoom1.bump df [] r
      hr hv

/-- Witness for C1 at a concrete one-row input. -/
theorem C1_partition_witness :
    rowW ∈ [rowW] ∧ rowInRange rowW = true ∧
    trivGeo.latlngToCell rowW.lat rowW.lng 8
      ∈ (Zoom1.create_h3_hexagons trivGeo [rowW] 8).map Zoom1.Feature.h3_index :=
  ⟨by decide, by decide,
   (C1_partition trivGeo 8 [rowW]).2.2.2 rowW (by decide) (by decide)⟩

/-- C2: every emitted per-cell feature satisfies
`success_orders + fail_orders = total_orders` exactly and
`0 ≤ success_rate ≤ 100`, in both the whole-dataset path (app1) and the
region-fill path (script.py). -/
theorem C2_success_split (g : GeoLib) (df : List Row)
    (boundary : List (Rat × Rat)) (res : Nat) :
    (∀ f ∈ App1.create_h3_hexagons g df,
        f.success_orders + f.fail_orders = f.total_orders ∧
        0 ≤ f.success_rate ∧ f.success_rate ≤ 100) ∧
    (∀ hx ∈ Script.fill_polygon_with_hexagons g boundary res df,
        hx.success_orders + hx.fail_orders = hx.total_orders ∧
        0 ≤ hx.success_rate ∧ hx.success_rate ≤ 100) := by
  constructor
  · intro f hf
    unfold App1.create_h3_hexagons at hf
    rw [app1_filter_eq] at hf
    obtain ⟨kd, hkd, rfl⟩ := List.mem_map.mp hf
    have hsplit := app1_agg_split df kd hkd
    have hpos := app1_agg_pos df kd hkd
    have hle : kd.2.success_orders ≤ kd.2.total_orders := by omega
    have hb := rate_bounds kd.2.success_orders kd.2.total_orders hle hpos
    refine ⟨hsplit, ?_, ?_⟩
    · show (0 : Rat) ≤ pyRound
        ((kd.2.success_orders : Rat) / (kd.2.total_orders : Rat) * 100) 2
      exact pyRound_nonneg _ 2 hb.1
    · show pyRound
        ((kd.2.success_orders : Rat) / (kd.2.total_orders : Rat) * 100) 2 ≤ 100
      have h100 := pyRound_le
        ((kd.2.success_orders : Rat) / (kd.2.total_orders : Rat) * 100) 2 100
        (by exact_mod_cast hb.2)
      exact_mod_cast h100
  · intro hx hhx
    unfold Script.fill_polygon_with_hexagons at hhx
    split at hhx
    · exact absurd hhx (List.not_mem_nil _)
    · rw [script_filter_eq] at hhx
      obtain ⟨kd, hkd, rfl⟩ := List.mem_map.mp hhx
      have hsplit := script_agg_split g boundary res df kd hkd
      have hpos := script_agg_pos g boundary res df kd hkd
      have hle : kd.2.success_orders ≤ kd.2.total_orders := by omega
      have hb := rate_bounds kd.2.success_orders kd.2.total_orders hle hpos
      exact ⟨hsplit, hb.1, hb.2⟩

/-- Witness for C2 at a concrete one-row input. -/
theorem C2_success_split_witness :
    featW ∈ App1.create_h3_hexagons trivGeo [rowW] ∧
    (featW.success_orders + featW.fail_orders = featW.total_orders ∧
     0 ≤ featW.success_rate ∧ featW.success_rate ≤ 100) := by
  have hm : featW ∈ App1.create_h3_hexagons trivGeo [rowW] := List.Mem.head _
  exact ⟨hm, (C2_success_split trivGeo [rowW] triBoundary 8).1 featW hm⟩

/-- C3: a record is counted as a success exactly when its `order_status`,
whitespace-stripped and lowercased, equals the literal `"success"`; any other
value (including the `str(nan)` of a missing value) increments the fail
counter instead, while the total always increments by one — in both the
whole-dataset bump (app1) and the region-fill bump (script.py). -/
theorem C3_status_normalisation (r : Row) (dA : App1.CellData)
    (dS : Script.CellData) :
    (App1.bump r dA).total_orders = dA.total_orders + 1 ∧
    (App1.bump r dA).success_orders = dA.success_orders +
      (if normStatus r.orderStatus = "success" then 1 else 0) ∧
    (App1.bump r dA).fail_orders = dA.fail_orders +
      (if normStatus r.orderStatus = "success" then 0 else 1) ∧
    (Script.bump r dS).success_orders = dS.success_orders +
      (if normStatus r.orderStatus = "success" then 1 else 0) ∧
    (Script.bump r dS).fail_orders = dS.fail_orders +
      (if normStatus r.orderStatus = "success" then 0 else 1) := by
  by_cases h : normStatus r.orderStatus = "success" <;>
    refine ⟨?_, ?_, ?_, ?_, ?_⟩ <;> simp [App1.bump, Script.bump, h]

/-- C4: in region-fill mode (with a non-degenerate boundary), a filtered
record contributes to the output exactly when its coordinates are in range,
its cell at the requested resolution lies in the disk candidate set, and
that cell's boundary polygon intersects the region polygon (the conjunction
`Script.fillValid`); and every emitted cell passed both the disk-membership
and the intersection test. -/
theorem C4_region_restriction (g : GeoLib) (df : List Row)
    (boundary : List (Rat × Rat)) (res : Nat) (hlen : 3 ≤ boundary.length) :
    ((Script.fill_polygon_with_hexagons g boundary res df).map
        Script.Hexagon.total_orders).sum
      = (df.filter (Script.fillValid g boundary res)).length ∧
    ∀ hx ∈ Script.fill_polygon_with_hexagons g boundary res df,
      hx.h3_index ∈ Script.regionCandidates g boundary res ∧
      Script.cellIntersectsRegion g boundary hx.h3_index = true := by
  have hnot : ¬ boundary.length < 3 := by omega
  constructor
  · unfold Script.fill_polygon_with_hexagons
    rw [if_neg hnot, script_filter_eq, List.map_map]
    have h : ((Script.aggregate g boundary res df).map
          (Script.Hexagon.total_orders ∘ Script.mkHexagon g)).sum
        = sumBy Script.CellData.total_orders
            (Script.aggregate g boundary res df) := rfl
    rw [h, script_total_conservation]
  · intro hx hhx
    unfold Script.fill_polygon_with_hexagons at hhx
    rw [if_neg hnot, script_filter_eq] at hhx
    obtain ⟨kd, hkd, rfl⟩ := List.mem_map.mp hhx
    have hk : kd.1 ∈ keysOf (Script.aggregate g boundary res df) :=
      List.mem_map.mpr ⟨kd, hkd, rfl⟩
    have hprov := mem_keysOf_foldl (Script.fillValid g boundary res)
      (fun r => g.latlngToCell r.lat r.lng res) Script.dflt Script.bump df []
      kd.1 hk
    rcases hprov with h0 | ⟨r, _, hv, hkey⟩
    · simp [keysOf] at h0
    · simp only [Script.fillValid, Bool.and_eq_true] at hv
      obtain ⟨_, hmem, hint⟩ := hv
      constructor
      · show kd.1 ∈ Script.regionCandidates g boundary res
        rw [hkey]
        exact of_decide_eq_true hmem
      · show Script.cellIntersectsRegion g boundary kd.1 = true
        rw [hkey]
        exact hint

/-- Witness for C4 at a concrete one-row input with a triangular region. -/
theorem C4_region_restriction_witness :
    3 ≤ triBoundary.length ∧
    ((Script.fill_polygon_with_hexagons trivGeo triBoundary 8 [rowW]).map
        Script.Hexagon.total_orders).sum
      = ([rowW].filter (Script.fillValid trivGeo triBoundary 8)).length :=
  ⟨by decide,
   (C4_region_restriction trivGeo [rowW] triBoundary 8 (by decide)).1⟩

/-- C5: a boundary with fewer than 3 vertices (including an empty or
two-vertex boundary) makes the region-fill operation return an empty hexagon
list instead of failing. -/
theorem C5_degenerate_boundary (g : GeoLib) (boundary : List (Rat × Rat))
    (res : Nat) (df : List Row) (h : boundary.length < 3) :
    Script.fill_polygon_with_hexagons g boundary res df = [] := by
  unfold Script.fill_polygon_with_hexagons
  rw [if_pos h]

/-- Witness for C5 at a concrete two-vertex boundary. -/
theorem C5_degenerate_boundary_witness :
    twoVertexBoundary.length < 3 ∧
    Script.fill_polygon_with_hexagons trivGeo twoVertexBoundary 8 [rowW] = [] :=
  ⟨by decide,
   C5_degenerate_boundary trivGeo twoVertexBoundary 8 [rowW] (by decide)⟩

/-- C6: a filter configuration whose filtered record set is empty yields an
empty feature list and a stats `success_rate` of exactly 0 (never a division
error), in both app1's player/hour-bin path and app2's time-bin path. -/
theorem C6_empty_filter (g : GeoLib) (df : List Row) (player bin : String)
    (bins : List String)
    (hA : App1.applyFilters df player bin = [])
    (hB : App2.filteredByBins df bins = []) :
    (App1.filter_response g df player bin).1 = [] ∧
    (App1.filter_response g df player bin).2.success_rate = 0 ∧
    (App2.filter_response g df bins).1 = [] ∧
    (App2.filter_response g df bins).2.success_rate = 0 := by
  refine ⟨?_, ?_, ?_, ?_⟩ <;>
    simp [App1.filter_response, App2.filter_response, hA, hB, app1_create_nil,
      app2_create_nil, successCount, pyRound_zero]

/-- Witness for C6 at a concrete one-row input with non-matching filters. -/
theorem C6_empty_filter_witness :
    App1.applyFilters [rowW] "nobody" "All" = [] ∧
    App2.filteredByBins [rowW] ["zzz"] = [] ∧
    ((App1.filter_response trivGeo [rowW] "nobody" "All").1 = [] ∧
     (App1.filter_response trivGeo [rowW] "nobody" "All").2.success_rate = 0 ∧
     (App2.filter_response trivGeo [rowW] ["zzz"]).1 = [] ∧
     (App2.filter_response trivGeo [rowW] ["zzz"]).2.success_rate = 0) :=
  ⟨by decide, by decide,
   C6_empty_filter trivGeo [rowW] "nobody" "All" ["zzz"] (by decide) (by decide)⟩

/-- C7 (counterexample): at a concrete non-empty record set, an empty
multi-valued time-bin selection is rejected by app2's endpoint with the 400
error `'No time bins selected'` — it is not a no-op pass-through. -/
theorem C7_counterexample :
    App2.filter_hexagons trivGeo [rowW] []
      = Except.error "No time bins selected" ∧
    exceptIsOk (App2.filter_hexagons trivGeo [rowW] []) = false :=
  ⟨rfl, rfl⟩

/-- C7 (amended): an "All" selection is a no-op pass-through returning the
full record set, while an EMPTY multi-valued time-bin selection is rejected
with the 400 error `'No time bins selected'` rather than passing through. -/
theorem C7_amended (g : GeoLib) (df : List Row) :
    App1.applyFilters df "All" "All" = df ∧
    App2.filter_hexagons g df [] = Except.error "No time bins selected" := by
  constructor
  · simp [App1.applyFilters]
  · rfl

/-- C8 (amended): the whole-dataset path emits
`success_rate = round(success/total*100, 2)`, but the region-fill path emits
the UNROUNDED value `success/total*100`. -/
theorem C8_rounding (g : GeoLib) (df : List Row) (boundary : List (Rat × Rat))
    (res : Nat) :
    (∀ f ∈ App1.create_h3_hexagons g df,
        f.success_rate = pyRound
          ((f.success_orders : Rat) / (f.total_orders : Rat) * 100) 2) ∧
    (∀ hx ∈ Script.fill_polygon_with_hexagons g boundary res df,
        hx.success_rate
          = (hx.success_orders : Rat) / (hx.total_orders : Rat) * 100) := by
  constructor
  · intro f hf
    unfold App1.create_h3_hexagons at hf
    obtain ⟨kd, _, rfl⟩ := List.mem_map.mp hf
    rfl
  · intro hx hhx
    unfold Script.fill_polygon_with_hexagons at hhx
    split at hhx
    · exact absurd hhx (List.not_mem_nil _)
    · obtain ⟨kd, _, rfl⟩ := List.mem_map.mp hhx
      rfl

/-- C8 (counterexample): with one success among three orders in one cell, the
region-fill path emits `success_rate = 100/3`, which differs from
`round(success/total*100, 2) = 33.33`. -/
theorem C8_counterexample :
    (Script.fill_polygon_with_hexagons trivGeo triBoundary 8
        [rowW, rowF, rowF]).map Script.Hexagon.success_rate
      = [((1 : Nat) : Rat) / ((3 : Nat) : Rat) * 100] ∧
    ((1 : Nat) : Rat) / ((3 : Nat) : Rat) * 100
      ≠ pyRound (((1 : Nat) : Rat) / ((3 : Nat) : Rat) * 100) 2 := by
  constructor
  · rfl
  · have hcast : ((1 : Nat) : Rat) / ((3 : Nat) : Rat) * 100 = 100/3 := by
      push_cast
      ring
    rw [hcast]
    have h1 : ((100 : Rat)/3 * 10 ^ (2 : Nat)) = 10000/3 := by norm_num
    have h2 : ((10000 : Rat)/3).floor = 3333 := by norm_num [Rat.floor_def']
    have hc : (10000 : Rat)/3 - ((3333 : Int) : Rat) < 1/2 := by norm_num
    have h3 : roundHalfEven ((10000 : Rat)/3) = 3333 := by
      unfold roundHalfEven
      rw [h2]
      rw [if_pos hc]
    have h4 : pyRound ((100 : Rat)/3) 2 = 3333/100 := by
      unfold pyRound
      rw [h1, h3]
      norm_num
    rw [h4]
    norm_num

/-- Witness for the C8 amended theorem at a concrete one-row input. -/
theorem C8_rounding_witness :
    hexW ∈ Script.fill_polygon_with_hexagons trivGeo triBoundary 8 [rowW] ∧
    hexW.success_rate
      = (hexW.success_orders : Rat) / (hexW.total_orders : Rat) * 100 := by
  have hm : hexW ∈ Script.fill_polygon_with_hexagons trivGeo triBoundary 8
      [rowW] := List.Mem.head _
  exact ⟨hm, (C8_rounding trivGeo [rowW] triBoundary 8).2 hexW hm⟩

/-- C9: the derived hour always lies in `[0, 23]`, but the quartered-mode
binning (`pd.cut` with right-closed bins `[0, 6, 12, 18, 24]`) leaves the
hour 0 — e.g. a record timestamped 00:30 — without any time bin: the set of
hours in `[0, 23]` that receive no bin is exactly `{0}`, contradicting the
claim that no surviving record is left without a time bin (and the code's
own label "Night (12AM-6AM)"). -/
theorem C9_time_bin_gap :
    (∀ m : Nat, dtHour m ≤ 23) ∧
    dtHour 30 = 0 ∧
    timeBinOf (dtHour 30) = none ∧
    (List.range 24).filter (fun h => !(timeBinOf h).isSome) = [0] := by
  refine ⟨?_, by decide, by decide, by decide⟩
  intro m
  unfold dtHour
  have := Nat.mod_lt (m / 60) (show 0 < 24 by decide)
  omega

/-- C10: in app1's whole-dataset filter path, every emitted feature's cell is
the `h3_index_id` precomputed at load time at the fixed resolution 8 for some
filtered in-range record — for every filter request (which carries no
resolution parameter), the output cells are resolution-8 cells. -/
theorem C10_resolution8 (g : GeoLib) (raw : List Row) (player bin : String) :
    ∀ f ∈ (App1.filter_response g (App1.load g raw) player bin).1,
      f.h3_index ∈
        ((App1.applyFilters (App1.load g raw) player bin).filter
            rowInRange).map (fun r => g.latlngToCell r.lat r.lng 8) := by
  intro f hf
  have hf2 : f.h3_index ∈ (App1.create_h3_hexagons g
      (App1.applyFilters (App1.load g raw) player bin)).map
        App1.Feature.h3_index :=
    List.mem_map.mpr ⟨f, hf, rfl⟩
  rw [app1_map_h3] at hf2
  have hprov := mem_keysOf_foldl rowInRange (fun r => r.h3Index) App1.dflt
    App1.bump (App1.applyFilters (App1.load g raw) player bin) [] f.h3_index
    hf2
  rcases hprov with h0 | ⟨r, hr, hv, hkey⟩
  · simp [keysOf] at h0
  · have hsub : r ∈ App1.load g raw := app1_applyFilters_subset _ _ _ r hr
    obtain ⟨r0, _, rfl⟩ := List.mem_map.mp hsub
    refine List.mem_map.mpr ⟨App1.withH3Index g r0,
      List.mem_filter.mpr ⟨hr, hv⟩, ?_⟩
    rw [hkey]
    rfl

/-- Witness for C10 at a concrete one-row input. -/
theorem C10_resolution8_witness :
    featW ∈ (App1.filter_response trivGeo (App1.load trivGeo [rowW])
        "All" "All").1 ∧
    featW.h3_index ∈
      ((App1.applyFilters (App1.load trivGeo [rowW]) "All" "All").filter
          rowInRange).map (fun r => trivGeo.latlngToCell r.lat r.lng 8) := by
  have hm : featW ∈ (App1.filter_response trivGeo (App1.load trivGeo [rowW])
      "All" "All").1 := List.Mem.head _
  exact ⟨hm, C10_resolution8 trivGeo [rowW] "All" "All" featW hm⟩

end Logistics
